import Mathlib

/-!
Verification of the check-servers family of command-line health-check tools
(ICMP server checks, Docker container checks, DNS resolution checks).

The Python sources are shallowly embedded: each relevant Python function is
translated to an executable Lean definition over `String`, `List`, `ℚ`
(for Python floats; all values arising here are decimal literals) and
`Except Unit` (for raised exceptions).  External effects (running the
`ping` subprocess, talking to the Docker daemon, issuing DNS queries) are
modelled as explicit oracle parameters: a probe receives the outcome of
each transport operation as data and the embedding reproduces the pure
control flow of the source around those outcomes.
-/

namespace Check

/-! ## Python string primitives -/

/-- Python `\s` / `str.strip` whitespace: space, tab, newline, carriage
return, vertical tab, form feed (ASCII range; the sources only ever meet
ASCII config text and `ping` output). -/
def isPySpace (c : Char) : Bool :=
  c == ' ' || c == '\t' || c == '\n' || c == '\r' || c == '\x0b' || c == '\x0c'

/-- `str.strip()` on a character list. -/
def pyStripList (cs : List Char) : List Char :=
  ((cs.dropWhile isPySpace).reverse.dropWhile isPySpace).reverse

/-- `line.split(maxsplit=1)`: leading whitespace dropped, first
whitespace-delimited token, then the remainder with its own leading
whitespace dropped (kept verbatim otherwise). -/
def splitMax1 (s : String) : List String :=
  let cs := s.data.dropWhile isPySpace
  if cs.isEmpty then []
  else
    let tok := cs.takeWhile (fun c => !(isPySpace c))
    let rest := (cs.dropWhile (fun c => !(isPySpace c))).dropWhile isPySpace
    if rest.isEmpty then [String.mk tok] else [String.mk tok, String.mk rest]

/-- `needle` occurs at the start of `hay`. -/
def startsList : List Char → List Char → Bool
  | [], _ => true
  | _ :: _, [] => false
  | a :: as, b :: bs => a == b && startsList as bs

/-- Python's substring test `needle in hay`. -/
def substrAux (n : List Char) : List Char → Bool
  | [] => startsList n []
  | c :: cs => startsList n (c :: cs) || substrAux n cs

/-- Python's substring test on strings. -/
def isSubstring (needle hay : String) : Bool :=
  substrAux needle.data hay.data

/-! ## Python numeric parsing

Python `int(...)` / `float(...)` on stripped text.  `ℚ` stands in for
Python floats: every numeral the tools ever parse is a short decimal
literal, represented exactly in both.  (Digit-group underscores and the
`inf`/`nan` spellings of `float` are not modelled; no call site in these
tools can reach them with a value that parses.) -/

def digitsToNat (ds : List Char) : Nat :=
  ds.foldl (fun n c => n * 10 + (c.toNat - '0'.toNat)) 0

/-- Digits of `int(s)` after the optional sign: nonempty and all ASCII digits. -/
def pyIntDigits (ds : List Char) : Option Nat :=
  if !ds.isEmpty && ds.all Char.isDigit then some (digitsToNat ds) else none

/-- Python `int(s)`: strip, optional sign, decimal digits; anything else
raises `ValueError`, modelled as `none`. -/
def pyInt (s : String) : Option Int :=
  match pyStripList s.data with
  | '+' :: ds => (pyIntDigits ds).map Int.ofNat
  | '-' :: ds => (pyIntDigits ds).map (fun n => -(n : Int))
  | ds => (pyIntDigits ds).map Int.ofNat

/-- Exponent suffix of a float literal: empty, or `e`/`E`, optional sign,
digits.  Returns the exponent as sign and magnitude. -/
def pyFloatExp : List Char → Option (Bool × Nat)
  | [] => some (true, 0)
  | 'e' :: rest => pyFloatExpSigned rest
  | 'E' :: rest => pyFloatExpSigned rest
  | _ => none
where
  pyFloatExpSigned : List Char → Option (Bool × Nat)
    | '+' :: ds => (pyIntDigits ds).map (fun n => (true, n))
    | '-' :: ds => (pyIntDigits ds).map (fun n => (false, n))
    | ds => (pyIntDigits ds).map (fun n => (true, n))

/-! Rational arithmetic is written through `mkRat` and the `num`/`den`
projections rather than `ℚ`'s bundled `+ * /`: the two agree (lemmas
`qAdd_eq`, `qMul_eq`, `qDivNat_eq` below), and the `mkRat` route lets
every concrete run of the embedded code be checked by `decide`. -/

/-- `a + b` on `ℚ`, computed through `mkRat`. -/
def qAdd (a b : ℚ) : ℚ := mkRat (a.num * b.den + b.num * a.den) (a.den * b.den)

/-- `a * b` on `ℚ`, computed through `mkRat`. -/
def qMul (a b : ℚ) : ℚ := mkRat (a.num * b.num) (a.den * b.den)

/-- `a / n` on `ℚ` for a natural `n`, computed through `mkRat`
(`n = 0` gives `0`, as does division on `ℚ`). -/
def qDivNat (a : ℚ) (n : Nat) : ℚ := mkRat a.num (a.den * n)

/-- Mantissa times ten to the (signed) power. -/
def applyExp (m : ℚ) : Bool × Nat → ℚ
  | (true, n) => qMul m (mkRat (((10 ^ n : Nat) : Int)) 1)
  | (false, n) => qDivNat m (10 ^ n)

/-- Unsigned part of Python `float(s)`: `digits [. digits] [exp]` or
`. digits [exp]`, needing at least one digit around the point.  The
decimal value is represented exactly as a rational. -/
def pyFloatUnsigned (cs : List Char) : Option ℚ :=
  let ip := cs.takeWhile Char.isDigit
  let rest := cs.dropWhile Char.isDigit
  match rest with
  | '.' :: rest2 =>
    let fp := rest2.takeWhile Char.isDigit
    let rest3 := rest2.dropWhile Char.isDigit
    if ip.isEmpty && fp.isEmpty then none
    else
      (pyFloatExp rest3).map
        (applyExp (mkRat ((digitsToNat ip * 10 ^ fp.length + digitsToNat fp : Nat) : Int)
          (10 ^ fp.length)))
  | _ =>
    if ip.isEmpty then none
    else (pyFloatExp rest).map (applyExp (mkRat ((digitsToNat ip : Nat) : Int) 1))

/-- Python `float(s)`: strip, optional sign, unsigned float literal;
anything else raises `ValueError`, modelled as `none`. -/
def pyFloat (s : String) : Option ℚ :=
  match pyStripList s.data with
  | '+' :: cs => pyFloatUnsigned cs
  | '-' :: cs => (pyFloatUnsigned cs).map Neg.neg
  | cs => pyFloatUnsigned cs

/-! ## Data model (`src/check/servers/__init__.py`) -/

/-- The `Server` dataclass: `ip`, `name` and `type` (`"local"`/`"remote"`). -/
structure Server where
  ip : String
  name : String
  type : String
deriving DecidableEq

/-- The `PingResult` dataclass; `latency` is in milliseconds. -/
structure PingResult where
  server : Server
  status : String
  latency : Option ℚ := none
deriving DecidableEq

/-- A Python numeric value as stored in the `settings` dict: either an
`int` or a `float`, depending on which parser the config parser used. -/
inductive PyNum where
  | int (i : Int)
  | float (q : ℚ)
deriving DecidableEq

/-- The `settings` dict of `parse_config`; it holds exactly the keys
`timeout` and `retries`. -/
structure Settings where
  timeout : PyNum
  retries : PyNum
deriving DecidableEq

/-- Defaults `{'timeout': 0.2, 'retries': 3}`. -/
def defaultSettings : Settings :=
  { timeout := .float (mkRat 2 10), retries := .int 3 }

/-! ## Config parser (`parse_config`)

The file is modelled as its list of lines (the text split at newlines,
which is how `for line in f` hands lines to the loop; the trailing
newline is immaterial because every line is first `strip()`ed). -/

/-- Loop state of `parse_config`: accumulated settings, accumulated
servers and the current `[section]` context. -/
structure ParseState where
  settings : Settings
  servers : List Server
  currentSection : Option String
deriving DecidableEq

def initParseState : ParseState :=
  { settings := defaultSettings, servers := [], currentSection := none }

/-- `float(value) if '.' in value else int(value)` on the stripped value
(the library strips before testing for `'.'`; the flat script tests the
raw value, which agrees because `'.'` is not whitespace). -/
def parseSettingValue (value : String) : Option PyNum :=
  if value.data.elem '.' then (pyFloat value).map PyNum.float
  else (pyInt value).map PyNum.int

/-- `if key in settings: settings[key] = ...` with the library's
`try ... except ValueError: pass` — an unparsable value leaves the dict
untouched. -/
def applySetting (st : Settings) (key value : String) : Settings :=
  if key = "timeout" then
    match parseSettingValue value with
    | some n => { st with timeout := n }
    | none => st
  else if key = "retries" then
    match parseSettingValue value with
    | some n => { st with retries := n }
    | none => st
  else st

/-- The stripped line is blank or a `#` comment. -/
def lineSkipped (cs : List Char) : Bool :=
  cs.isEmpty || cs.head? == some '#'

/-- `line.startswith('[') and line.endswith(']')`. -/
def lineIsHeader (cs : List Char) : Bool :=
  cs.head? == some '[' && cs.getLast? == some ']'

/-- `line[1:-1]`: the section name inside the brackets. -/
def sliceInner (cs : List Char) : String :=
  String.mk ((cs.drop 1).dropLast)

/-- Key of `line.split('=', 1)`, stripped. -/
def eqKey (cs : List Char) : String :=
  String.mk (pyStripList (cs.takeWhile (· != '=')))

/-- Value of `line.split('=', 1)`, stripped. -/
def eqValue (cs : List Char) : String :=
  String.mk (pyStripList ((cs.dropWhile (· != '=')).drop 1))

/-- One iteration of the `parse_config` loop in
`src/check/servers/__init__.py` (lines 61–85): strip; skip blanks and
`#` comments; bracketed lines set the section; lines containing `'='`
are setting assignments; otherwise, inside `[local]`/`[remote]`, a line
with two whitespace-separated fields becomes a `Server`. -/
def parseLineStep (st : ParseState) (rawLine : String) : ParseState :=
  let cs := pyStripList rawLine.data
  if lineSkipped cs then st
  else if lineIsHeader cs then
    { st with currentSection := some (sliceInner cs) }
  else if cs.elem '=' then
    { st with settings := applySetting st.settings (eqKey cs) (eqValue cs) }
  else
    match st.currentSection with
    | some sec =>
      if sec = "local" ∨ sec = "remote" then
        match splitMax1 (String.mk cs) with
        | [ip, name] => { st with servers := st.servers ++ [⟨ip, name, sec⟩] }
        | _ => st
      else st
    | none => st

/-- `parse_config` of the library (`src/check/servers/__init__.py`). -/
def parse_config (lines : List String) : ParseState :=
  lines.foldl parseLineStep initParseState

/-- The setting assignment of the flat script `check-servers.py`
(line 74): same parse, but with no `try/except`, so an unparsable value
raises `ValueError` (modelled as `Except.error ()`). -/
def applySettingScript (st : Settings) (key value : String) : Except Unit Settings :=
  if key = "timeout" then
    match parseSettingValue value with
    | some n => .ok { st with timeout := n }
    | none => .error ()
  else if key = "retries" then
    match parseSettingValue value with
    | some n => .ok { st with retries := n }
    | none => .error ()
  else .ok st

/-- One iteration of the `parse_config` loop of the flat script
`check-servers.py` (lines 61–80); identical to the library except that a
malformed setting value propagates `ValueError`. -/
def parseLineStepScript (st : ParseState) (rawLine : String) : Except Unit ParseState :=
  let cs := pyStripList rawLine.data
  if lineSkipped cs then .ok st
  else if lineIsHeader cs then
    .ok { st with currentSection := some (sliceInner cs) }
  else if cs.elem '=' then
    (applySettingScript st.settings (eqKey cs) (eqValue cs)).map
      (fun sets => { st with settings := sets })
  else
    match st.currentSection with
    | some sec =>
      if sec = "local" ∨ sec = "remote" then
        match splitMax1 (String.mk cs) with
        | [ip, name] => .ok { st with servers := st.servers ++ [⟨ip, name, sec⟩] }
        | _ => .ok st
      else .ok st
    | none => .ok st

/-- `parse_config` of the flat script `check-servers.py`. -/
def parse_config_script (lines : List String) : Except Unit ParseState :=
  lines.foldlM parseLineStepScript initParseState

/-! ## Server filtering -/

/-- `get_servers_to_check` (`src/check/servers/__init__.py`, lines
193–199): `-l` without `-r` keeps local servers, `-r` without `-l`
keeps remote servers, anything else returns the list unchanged. -/
def get_servers_to_check (allServers : List Server) (lflag rflag : Bool) : List Server :=
  if lflag && !rflag then allServers.filter (fun s => decide (s.type = "local"))
  else if rflag && !lflag then allServers.filter (fun s => decide (s.type = "remote"))
  else allServers

/-- The inline filter of the flat script `check-servers.py` (`main`,
lines 123–128): `if args.local: ... elif args.remote: ... else: ...`. -/
def scriptFilter (allServers : List Server) (lflag rflag : Bool) : List Server :=
  if lflag then allServers.filter (fun s => decide (s.type = "local"))
  else if rflag then allServers.filter (fun s => decide (s.type = "remote"))
  else allServers

/-! ## Interactive removal (`remove_server_from_config`) -/

/-- `remove_server_from_config` (`src/check/servers/__init__.py`, lines
137–167), from the point where the config file has been located: parse
the servers out of the file's lines, read the user's selection, and
either return without touching the file (`none`) or rewrite it with
every line containing both the chosen server's ip and name as
substrings dropped (`some newLines`).  `int(...)` failure, a `0`
selection and an out-of-range selection all return `none`. -/
def remove_server_select (lines : List String) (input : String) : Option (List String) :=
  let servers := (parse_config lines).servers
  if servers.isEmpty then none
  else
    match pyInt input with
    | none => none
    | some k =>
      if k = 0 then none
      else if 1 ≤ k ∧ k ≤ (servers.length : Int) then
        match servers.get? (k - 1).toNat with
        | some srv =>
          some (lines.filter (fun line => !(isSubstring srv.ip line && isSubstring srv.name line)))
        | none => none
      else none

/-! ## Ping probe (`ping_server`)

The `subprocess.run(["ping", "-c", "1", f"-W{timeout}", server.ip], ...)`
call is modelled by an oracle `att : Nat → PingAttempt` giving the exit
status and captured stdout of the i-th attempt.  The regex
`time=([\d.]+)\s*ms` is embedded directly: at a given position the
pattern matches exactly when the literal `time=` is followed by a
nonempty maximal run of digits/dots, optional whitespace and `ms`
(no backtracking can help: a shorter digit/dot run or whitespace run
would have to continue with a digit, dot or whitespace where `m` is
required), and `re.search` takes the leftmost such position. -/

instance {ε α : Type} [DecidableEq ε] [DecidableEq α] : DecidableEq (Except ε α) := fun a b =>
  match a, b with
  | .ok x, .ok y => if h : x = y then isTrue (by rw [h]) else isFalse (by simp [h])
  | .error x, .error y => if h : x = y then isTrue (by rw [h]) else isFalse (by simp [h])
  | .ok _, .error _ => isFalse (by simp)
  | .error _, .ok _ => isFalse (by simp)

/-- Exit status and stdout of one `subprocess.run` of `ping`. -/
structure PingAttempt where
  returncode : Int
  stdout : String

def isDigitDot (c : Char) : Bool := c.isDigit || c == '.'

/-- The regex `time=([\d.]+)\s*ms` matched at the head of `cs`;
returns the captured group. -/
def timeMatchAt : List Char → Option (List Char)
  | 't' :: 'i' :: 'm' :: 'e' :: '=' :: rest =>
    let ds := rest.takeWhile isDigitDot
    if ds.isEmpty then none
    else
      match (rest.dropWhile isDigitDot).dropWhile isPySpace with
      | 'm' :: 's' :: _ => some ds
      | _ => none
  | _ => none

/-- `re.search`: leftmost match of `time=([\d.]+)\s*ms`. -/
def searchTimeAux : List Char → Option (List Char)
  | [] => none
  | c :: cs =>
    match timeMatchAt (c :: cs) with
    | some g => some g
    | none => searchTimeAux cs

/-- `re.search(r"time=([\d.]+)\s*ms", stdout)`, as the captured group. -/
def reSearchTime (s : String) : Option String :=
  (searchTimeAux s.data).map String.mk

/-- The retry loop of `ping_server` (`src/check/servers/__init__.py`,
lines 173–191), attempt `i` first, `n` attempts left.  Returns the
outcome — `ok (some q)` for a parsed latency, `ok none` for falling out
of the loop, `error ()` for the uncaught `ValueError` that
`float(match.group(1))` raises when the captured group (for example
`"."`) is not a float literal — paired with the number of attempts
actually performed. -/
def pingAux (att : Nat → PingAttempt) : Nat → Nat → Except Unit (Option ℚ) × Nat
  | _, 0 => (.ok none, 0)
  | i, n + 1 =>
    let a := att i
    if a.returncode = 0 then
      match reSearchTime a.stdout with
      | some g =>
        match pyFloat g with
        | some q => (.ok (some q), 1)
        | none => (.error (), 1)
      | none =>
        let r := pingAux att (i + 1) n
        (r.1, r.2 + 1)
    else
      let r := pingAux att (i + 1) n
      (r.1, r.2 + 1)

/-- `ping_server(server, timeout, retries)`: `OK` with the parsed
latency on the first successful attempt, `DOWN` with no latency after
exhausting the retries.  `timeout` only shapes the command line, so it
does not enter the result; the oracle `att` stands for the subprocess
outcomes under that timeout. -/
def ping_server (server : Server) (_timeout : ℚ) (att : Nat → PingAttempt)
    (retries : Nat) : Except Unit PingResult :=
  match (pingAux att 0 retries).1 with
  | .ok (some q) => .ok ⟨server, "OK", some q⟩
  | .ok none => .ok ⟨server, "DOWN", none⟩
  | .error e => .error e

/-- Number of `subprocess.run` invocations `ping_server` performs. -/
def ping_attempts (att : Nat → PingAttempt) (retries : Nat) : Nat :=
  (pingAux att 0 retries).2

/-! ## Concurrent dispatcher (`run_pings` and friends)

`as_completed` hands back the futures in completion order, an arbitrary
permutation of the submission order; the loop body stores each
successful result in the dict `results[res.server.name] = res` and a
raised exception is caught per item (the `except` arms) and stored
nowhere.  The dict is modelled as the association list of stores in
completion order, looked up last-store-wins. -/

/-- Python-dict lookup in a list of key/value stores: the latest store
for the key wins. -/
def dictGet {β : Type} : List (String × β) → String → Option β
  | [], _ => none
  | (k, v) :: rest, n =>
    match dictGet rest n with
    | some w => some w
    | none => if k = n then some v else none

/-- The collection loop of a dispatcher: walk the futures in completion
`order`; a probe that returns normally is stored under its result's
key, a probe that raises is reported and skipped. -/
def collectResults {α β : Type} (key : β → String) (probe : α → Except Unit β) :
    List α → List (String × β)
  | [] => []
  | a :: rest =>
    match probe a with
    | .ok b => (key b, b) :: collectResults key probe rest
    | .error _ => collectResults key probe rest

/-- `run_pings` (`src/check/servers/__init__.py`, lines 201–227): the
result dict after collecting all futures, `order` being the completion
order of the submitted servers and `probe` the outcome of each
`ping_server` future (`error` when the future raised, for example
`FileNotFoundError` when the `ping` command is absent). -/
def run_pings (order : List Server) (probe : Server → Except Unit PingResult) :
    List (String × PingResult) :=
  collectResults (fun r => r.server.name) probe order

/-- A probe with one injected per-item failure: entity `x`'s future
raises, every other entity behaves as before. -/
def probeWithFailure {α : Type} [DecidableEq α] (x : α)
    (probe : α → Except Unit PingResult) : α → Except Unit PingResult :=
  fun a => if a = x then .error () else probe a

/-! ## Renderer (`display_results`) -/

/-- The row `display_results` adds for a found result (name, ip, type,
status); in quiet mode the `OK` rows are merely not added, which does
not affect the order of the remaining rows. -/
def displayRow (r : PingResult) : String × String × String × String :=
  (r.server.name, r.server.ip, r.server.type, r.status)

/-- The rows of the results table in display order: iterate
`servers_to_check` in canonical (parse) order, skip servers with no
entry in the result dict (`if not res: continue`). -/
def display_rows (serversToCheck : List Server) (results : List (String × PingResult)) :
    List (String × String × String × String) :=
  serversToCheck.filterMap (fun s => (dictGet results s.name).map displayRow)

/-- The accumulators of `display_results` (lines 238–256):
`(up_count, down_count, total_latency)`.  The Python loop folds over
the servers left to right; addition of counts and of latencies is
associative and commutative, so the right fold below accumulates the
same values. -/
def display_stats (results : List (String × PingResult)) :
    List Server → Nat × Nat × ℚ
  | [] => (0, 0, 0)
  | s :: rest =>
    let t := display_stats results rest
    match dictGet results s.name with
    | none => t
    | some r =>
      if r.status = "OK" then (t.1 + 1, t.2.1, qAdd (r.latency.getD 0) t.2.2)
      else (t.1, t.2.1 + 1, t.2.2)

/-- `avg_latency = (total_latency / up_count) if up_count > 0 else 0`
(line 263). -/
def avg_latency (serversToCheck : List Server)
    (results : List (String × PingResult)) : ℚ :=
  let t := display_stats results serversToCheck
  if t.1 > 0 then qDivNat t.2.2 t.1 else 0

/-! ## Docker container probe (`check-docker.py`) -/

/-- What the probe needs of one container reported by
`client.containers.list(all=True)`: its name and status string. -/
structure DockerContainer where
  name : String
  status : String
deriving DecidableEq

/-- A row of the docker tool: (container name, host, status, info). -/
abbrev DockerRow := String × String × String × String

/-- The per-container outcome of `check_host_containers`
(`check-docker.py`, lines 69–77): look the name up in the
`{c.name: c for c in all_host_containers}` index (later duplicates win,
as in a dict comprehension); `OK` exactly for a `running` container,
otherwise `DOWN` with the actual state, or `DOWN`/`Not Found` when
absent. -/
def containerResult (host : String) (allContainers : List DockerContainer)
    (name : String) : DockerRow :=
  match dictGet (allContainers.map (fun c => (c.name, c))) name with
  | some c => (name, host, if c.status = "running" then "OK" else "DOWN", c.status)
  | none => (name, host, "DOWN", "Not Found")

/-- `check_host_containers(host, containers)` (`check-docker.py`, lines
57–84).  `conn` is the outcome of connecting to the Docker endpoint and
listing all containers; `error` stands for the caught
`APIError`/`DockerException`, upon which every requested container is
marked `FAIL`/`Host Unreachable`. -/
def check_host_containers (host : String) (containers : List String)
    (conn : Except Unit (List DockerContainer)) : List DockerRow :=
  match conn with
  | .error _ => containers.map (fun name => (name, host, "FAIL", "Host Unreachable"))
  | .ok allContainers => containers.map (containerResult host allContainers)

/-- Lexicographic order on code points, Python's `<` on strings. -/
def charListLt : List Char → List Char → Bool
  | [], [] => false
  | [], _ :: _ => true
  | _ :: _, [] => false
  | a :: as, b :: bs => a.toNat < b.toNat || (a == b && charListLt as bs)

/-- Python `a < b` on strings. -/
def strLt (a b : String) : Bool := charListLt a.data b.data

/-- Key order of `all_results.sort(key=lambda x: (x[1], x[0]))`
(`check-docker.py`, line 128): host first, then container name. -/
def dockerKeyLt (a b : DockerRow) : Bool :=
  strLt a.2.1 b.2.1 || (a.2.1 = b.2.1 && strLt a.1 b.1)

/-- Stable insertion into a sorted list: the new element goes after
every element whose key is less than or equal to its own. -/
def insertSorted (x : DockerRow) : List DockerRow → List DockerRow
  | [] => [x]
  | y :: ys => if dockerKeyLt x y then x :: y :: ys else y :: insertSorted x ys

/-- `all_results.sort(key=lambda x: (x[1], x[0]))`: Python's sort is
stable; a stable insertion sort computes the same list. -/
def docker_sort (l : List DockerRow) : List DockerRow :=
  l.foldl (fun acc x => insertSorted x acc) []

/-! ## DNS probe (`check-dns.py`) -/

/-- The `DNSQueryResult` dataclass. -/
structure DNSQueryResult where
  status : String
  ipv4 : String
  ipv6 : String
deriving DecidableEq

/-- The `SiteCheckResult` dataclass. -/
structure SiteCheckResult where
  site : String
  ph1 : DNSQueryResult
  ph2 : DNSQueryResult
  displayIpv4 : String
  displayIpv6 : String
deriving DecidableEq

/-- Outcome of one `resolver.resolve(website, rtype)` call: `error` for
any of the caught failure modes (`NoAnswer`, `NXDOMAIN`, `Timeout`,
`NoNameservers`), `ok` with the record strings otherwise. -/
abbrev DNSLookup := Except Unit (List String)

/-- `str(records[0]) if records else "-"`, with every caught failure
folded to `"-"`. -/
def firstRecord : DNSLookup → String
  | .ok (x :: _) => x
  | .ok [] => "-"
  | .error _ => "-"

/-- `get_dns_records(website, server)` (`check-dns.py`, lines 57–79),
with the two `resolver.resolve` outcomes as oracles.  Status is `OK`
if either record came back non-`"-"`, else `FAIL`. -/
def get_dns_records (aRes aaaaRes : DNSLookup) : DNSQueryResult :=
  let ipv4 := firstRecord aRes
  let ipv6 := firstRecord aaaaRes
  ⟨if ipv4 ≠ "-" ∨ ipv6 ≠ "-" then "OK" else "FAIL", ipv4, ipv6⟩

/-- `check_site(site)` (`check-dns.py`, lines 81–96): query both
resolvers and choose the display records, preferring resolver 1. -/
def check_site (site : String) (ph1A ph1AAAA ph2A ph2AAAA : DNSLookup) :
    SiteCheckResult :=
  let r1 := get_dns_records ph1A ph1AAAA
  let r2 := get_dns_records ph2A ph2AAAA
  ⟨site, r1, r2,
   if r1.ipv4 ≠ "-" then r1.ipv4 else r2.ipv4,
   if r1.ipv6 ≠ "-" then r1.ipv6 else r2.ipv6⟩

/-- The collection loop of the DNS tool's dispatcher (`check-dns.py`,
lines 111–118): results are stored under the site name in completion
order; per-site raises are caught and reported. -/
def run_dns (order : List String) (probe : String → Except Unit SiteCheckResult) :
    List (String × SiteCheckResult) :=
  collectResults (fun r => r.site) probe order

/-- The DNS renderer iterates `WEBSITES` in original order and skips
sites that never produced a result (`check-dns.py`, lines 129–137). -/
def dns_display_rows (websites : List String)
    (results : List (String × SiteCheckResult)) : List SiteCheckResult :=
  websites.filterMap (fun site => dictGet results site)

/-! ## Helper lemmas -/

theorem qAdd_eq (a b : ℚ) : qAdd a b = a + b := by
  unfold qAdd
  rw [Rat.mkRat_eq_div]
  push_cast
  conv_rhs => rw [← Rat.num_div_den a, ← Rat.num_div_den b]
  field_simp

theorem qDivNat_eq (a : ℚ) (n : Nat) : qDivNat a n = a / n := by
  unfold qDivNat
  rw [Rat.mkRat_eq_div]
  push_cast
  rw [div_mul_eq_div_div, Rat.num_div_den a]

theorem dictGet_cons_ne {β : Type} (k n : String) (v : β) (l : List (String × β))
    (h : k ≠ n) : dictGet ((k, v) :: l) n = dictGet l n := by
  simp only [dictGet]
  cases dictGet l n with
  | none => simp [h]
  | some w => rfl

theorem dictGet_eq_none {β : Type} (l : List (String × β)) (n : String)
    (h : ∀ p ∈ l, p.1 ≠ n) : dictGet l n = none := by
  induction l with
  | nil => rfl
  | cons p rest ih =>
    rw [show p = (p.1, p.2) from rfl, dictGet_cons_ne _ _ _ _ (h p (by simp))]
    exact ih (fun q hq => h q (by simp [hq]))

/-- A successful dict lookup comes from an entry of the list. -/
theorem dictGet_mem {β : Type} :
    ∀ (l : List (String × β)) (n : String) (v : β),
      dictGet l n = some v → (n, v) ∈ l := by
  intro l
  induction l with
  | nil => intro n v h; cases h
  | cons p rest ih =>
    obtain ⟨k, w⟩ := p
    intro n v h
    simp only [dictGet] at h
    cases hrest : dictGet rest n with
    | some u =>
      rw [hrest] at h
      injection h with h
      rw [← h]
      exact List.mem_cons_of_mem _ (ih n u hrest)
    | none =>
      rw [hrest] at h
      by_cases hp : k = n
      · rw [if_pos hp] at h
        injection h with h
        exact List.mem_cons.mpr (Or.inl (by rw [hp, h]))
      · rw [if_neg hp] at h
        cases h

/-- Every key in a collected result map is the key of some dispatched item. -/
theorem collect_keys {α β : Type} (key : β → String) (itemKey : α → String)
    (probe : α → Except Unit β)
    (hkey : ∀ a b, probe a = .ok b → key b = itemKey a) :
    ∀ (order : List α) (p : String × β),
      p ∈ collectResults key probe order → p.1 ∈ order.map itemKey := by
  intro order
  induction order with
  | nil => intro p hp; cases hp
  | cons a rest ih =>
    intro p hp
    rw [List.map_cons]
    cases hprobe : probe a with
    | ok b =>
      simp only [collectResults, hprobe] at hp
      rcases List.mem_cons.mp hp with h | h
      · rw [h, hkey a b hprobe]
        exact List.mem_cons_self _ _
      · exact List.mem_cons_of_mem _ (ih p h)
    | error e =>
      simp only [collectResults, hprobe] at hp
      exact List.mem_cons_of_mem _ (ih p hp)

/-- With pairwise-distinct item keys, the result map holds, under each
item's key, exactly the outcome of that item's probe (regardless of the
completion order the map was built in). -/
theorem dictGet_collect {α β : Type} (key : β → String) (itemKey : α → String)
    (probe : α → Except Unit β)
    (hkey : ∀ a b, probe a = .ok b → key b = itemKey a) :
    ∀ (order : List α), (order.map itemKey).Nodup →
      ∀ s ∈ order, dictGet (collectResults key probe order) (itemKey s) =
        (probe s).toOption := by
  intro order
  induction order with
  | nil => intro _ s hs; cases hs
  | cons a rest ih =>
    intro hnodup s hs
    rw [List.map_cons] at hnodup
    have hnd := List.nodup_cons.mp hnodup
    rcases List.mem_cons.mp hs with hsa | hsr
    · subst hsa
      have hnone : dictGet (collectResults key probe rest) (itemKey s) = none := by
        apply dictGet_eq_none
        intro p hp hcontra
        exact hnd.1 (hcontra ▸ collect_keys key itemKey probe hkey rest p hp)
      cases hprobe : probe s with
      | ok b =>
        simp only [collectResults, hprobe, dictGet]
        rw [hnone]
        simp [hkey s b hprobe, Except.toOption]
      | error e =>
        simp only [collectResults, hprobe]
        rw [hnone]
        rfl
    · have hne : itemKey a ≠ itemKey s :=
        fun hcontra => hnd.1 (hcontra ▸ List.mem_map_of_mem itemKey hsr)
      have ihx := ih hnd.2 s hsr
      cases hprobe : probe a with
      | ok b =>
        simp only [collectResults, hprobe]
        rw [dictGet_cons_ne (key b) (itemKey s) b _ (by rw [hkey a b hprobe]; exact hne)]
        exact ihx
      | error e =>
        simp only [collectResults, hprobe]
        exact ihx

/-- Without any distinctness assumption: an item whose probe returned
normally has an entry under its key in the collected map. -/
theorem dictGet_collect_isSome {α β : Type} (key : β → String) (itemKey : α → String)
    (probe : α → Except Unit β)
    (hkey : ∀ a b, probe a = .ok b → key b = itemKey a) :
    ∀ (order : List α), ∀ s ∈ order, ∀ b, probe s = .ok b →
      (dictGet (collectResults key probe order) (itemKey s)).isSome = true := by
  intro order
  induction order with
  | nil => intro s hs; cases hs
  | cons a rest ih =>
    intro s hs b hb
    rcases List.mem_cons.mp hs with hsa | hsr
    · subst hsa
      simp only [collectResults, hb, dictGet]
      cases hrest : dictGet (collectResults key probe rest) (itemKey s) with
      | some w => simp [hrest]
      | none => simp [hrest, hkey s b hb]
    · cases hprobe : probe a with
      | ok c =>
        simp only [collectResults, hprobe, dictGet]
        cases hrest : dictGet (collectResults key probe rest) (itemKey s) with
        | some w => simp [hrest]
        | none =>
          have hthis := ih s hsr b hb
          rw [hrest] at hthis
          simp at hthis
      | error e =>
        simp only [collectResults, hprobe]
        exact ih s hsr b hb

/-! ## Claim C6 -/

/-- The report `check_host_containers` produces for one requested
container name, as a standalone function of the connection outcome. -/
def hostContainerReport (host : String) (conn : Except Unit (List DockerContainer))
    (name : String) : DockerRow :=
  match conn with
  | .error _ => (name, host, "FAIL", "Host Unreachable")
  | .ok allContainers => containerResult host allContainers name

/-- C6: for every host and configured container-name list, the container
probe reports each requested container independently — `OK` exactly when
the host's name-indexed container map holds it in a `running` state,
`DOWN` with its actual state string when present but not running, `DOWN`
with a `Not Found` reason when absent — and when the endpoint connection
itself fails, every requested container of that host is reported
`FAIL`/`Host Unreachable` instead of being probed individually. -/
theorem claim6_container_probe (host : String) (containers : List String)
    (conn : Except Unit (List DockerContainer)) (name : String) :
    check_host_containers host containers conn =
      containers.map (hostContainerReport host conn)
    ∧ ((hostContainerReport host conn name).2.2.1 = "OK" ↔
        ∃ allC c, conn = .ok allC ∧
          dictGet (allC.map (fun c => (c.name, c))) name = some c ∧
          c.status = "running")
    ∧ (conn = .error () →
        hostContainerReport host conn name = (name, host, "FAIL", "Host Unreachable"))
    ∧ (∀ allC, conn = .ok allC →
        dictGet (allC.map (fun c => (c.name, c))) name = none →
        hostContainerReport host conn name = (name, host, "DOWN", "Not Found"))
    ∧ (∀ allC c, conn = .ok allC →
        dictGet (allC.map (fun c => (c.name, c))) name = some c →
        c.status ≠ "running" →
        hostContainerReport host conn name = (name, host, "DOWN", c.status)) := by
  refine ⟨?_, ?_, ?_, ?_, ?_⟩
  · cases conn <;> rfl
  · cases conn with
    | error e =>
      constructor
      · intro h
        have h2 : ("FAIL" : String) = "OK" := h
        exact absurd h2 (by decide)
      · rintro ⟨allC, c, hok, -, -⟩
        cases hok
    | ok allC =>
      simp only [hostContainerReport, containerResult]
      cases hdict : dictGet (allC.map (fun c => (c.name, c))) name with
      | none =>
        constructor
        · intro h
          have h2 : ("DOWN" : String) = "OK" := h
          exact absurd h2 (by decide)
        · rintro ⟨allD, c, hok, hd, -⟩
          cases hok
          rw [hdict] at hd
          cases hd
      | some c =>
        show (if c.status = "running" then "OK" else "DOWN") = "OK" ↔ _
        by_cases hst : c.status = "running"
        · rw [if_pos hst]
          constructor
          · intro _
            exact ⟨allC, c, rfl, hdict, hst⟩
          · intro _
            rfl
        · rw [if_neg hst]
          constructor
          · intro h
            have h2 : ("DOWN" : String) = "OK" := h
            exact absurd h2 (by decide)
          · rintro ⟨allD, d, hok, hd, hrun⟩
            cases hok
            rw [hdict] at hd
            cases hd
            exact absurd hrun hst
  · intro h
    subst h
    rfl
  · intro allC h hdict
    subst h
    simp [hostContainerReport, containerResult, hdict]
  · intro allC c h hdict hrun
    subst h
    simp [hostContainerReport, containerResult, hdict, hrun]

/-- Witness for C6 at concrete inputs: a reachable host with a running
container and a stopped one, and an unreachable host. -/
theorem claim6_witness :
    (hostContainerReport "pi" (.ok [⟨"web", "running"⟩, ⟨"db", "exited"⟩]) "web").2.2.1 = "OK"
    ∧ hostContainerReport "pi" (.ok [⟨"web", "running"⟩, ⟨"db", "exited"⟩]) "db" =
      ("db", "pi", "DOWN", "exited")
    ∧ hostContainerReport "pi" (.error ()) "web" = ("web", "pi", "FAIL", "Host Unreachable") := by
  refine ⟨?_, ?_, ?_⟩
  · exact ((claim6_container_probe "pi" ["web"]
      (.ok [⟨"web", "running"⟩, ⟨"db", "exited"⟩]) "web").2.1).mpr
      ⟨[⟨"web", "running"⟩, ⟨"db", "exited"⟩], ⟨"web", "running"⟩, rfl, by decide, rfl⟩
  · exact (claim6_container_probe "pi" ["db"]
      (.ok [⟨"web", "running"⟩, ⟨"db", "exited"⟩]) "db").2.2.2.2
      [⟨"web", "running"⟩, ⟨"db", "exited"⟩] ⟨"db", "exited"⟩ rfl (by decide) (by decide)
  · exact (claim6_container_probe "pi" ["web"] (.error ()) "web").2.2.1 rfl

/-! ## Claim C7 -/

/-- The claim's notion of a lookup having resolved: the query returned
at least one record. -/
def lookupResolved (e : DNSLookup) : Prop := ∃ x xs, e = .ok (x :: xs)

/-- C7: a per-resolver DNS query result has status `OK` exactly when at
least one of its A/AAAA lookups resolved (every caught failure mode
being folded to the `"-"` placeholder), else `FAIL`; and the site's
display IPv4 (resp. IPv6) is the first resolver's record when that is
not `"-"`, otherwise the second resolver's.  The hypotheses state that
actual DNS answer strings are never the literal `"-"`. -/
theorem claim7_dns_records (aRes aaaaRes p2a p2aaaa : DNSLookup) (site : String)
    (hA : ∀ l, aRes = .ok l → ∀ x ∈ l, x ≠ "-")
    (hAAAA : ∀ l, aaaaRes = .ok l → ∀ x ∈ l, x ≠ "-") :
    ((get_dns_records aRes aaaaRes).status = "OK" ↔
      lookupResolved aRes ∨ lookupResolved aaaaRes)
    ∧ ((get_dns_records aRes aaaaRes).status = "OK" ∨
       (get_dns_records aRes aaaaRes).status = "FAIL")
    ∧ ((check_site site aRes aaaaRes p2a p2aaaa).ph1.ipv4 ≠ "-" →
        (check_site site aRes aaaaRes p2a p2aaaa).displayIpv4 =
          (check_site site aRes aaaaRes p2a p2aaaa).ph1.ipv4)
    ∧ ((check_site site aRes aaaaRes p2a p2aaaa).ph1.ipv4 = "-" →
        (check_site site aRes aaaaRes p2a p2aaaa).displayIpv4 =
          (check_site site aRes aaaaRes p2a p2aaaa).ph2.ipv4)
    ∧ ((check_site site aRes aaaaRes p2a p2aaaa).ph1.ipv6 ≠ "-" →
        (check_site site aRes aaaaRes p2a p2aaaa).displayIpv6 =
          (check_site site aRes aaaaRes p2a p2aaaa).ph1.ipv6)
    ∧ ((check_site site aRes aaaaRes p2a p2aaaa).ph1.ipv6 = "-" →
        (check_site site aRes aaaaRes p2a p2aaaa).displayIpv6 =
          (check_site site aRes aaaaRes p2a p2aaaa).ph2.ipv6) := by
  have hres : ∀ (e : DNSLookup), (∀ l, e = .ok l → ∀ x ∈ l, x ≠ "-") →
      (firstRecord e ≠ "-" ↔ lookupResolved e) := by
    intro e he
    cases e with
    | error u => simp [firstRecord, lookupResolved]
    | ok l =>
      cases l with
      | nil => simp [firstRecord, lookupResolved]
      | cons x xs =>
        simp only [firstRecord, lookupResolved]
        constructor
        · intro _
          exact ⟨x, xs, rfl⟩
        · intro _
          exact he (x :: xs) rfl x (by simp)
  refine ⟨?_, ?_, ?_, ?_, ?_, ?_⟩
  · show (if firstRecord aRes ≠ "-" ∨ firstRecord aaaaRes ≠ "-" then "OK" else "FAIL") =
      "OK" ↔ _
    by_cases h : firstRecord aRes ≠ "-" ∨ firstRecord aaaaRes ≠ "-"
    · rw [if_pos h]
      constructor
      · intro _
        exact h.imp ((hres aRes hA).mp) ((hres aaaaRes hAAAA).mp)
      · intro _
        rfl
    · rw [if_neg h]
      constructor
      · intro hc
        have hc2 : ("FAIL" : String) = "OK" := hc
        exact absurd hc2 (by decide)
      · intro hc
        exact absurd (hc.imp ((hres aRes hA).mpr) ((hres aaaaRes hAAAA).mpr)) h
  · show (if firstRecord aRes ≠ "-" ∨ firstRecord aaaaRes ≠ "-" then "OK" else "FAIL") =
      "OK" ∨
      (if firstRecord aRes ≠ "-" ∨ firstRecord aaaaRes ≠ "-" then "OK" else "FAIL") = "FAIL"
    by_cases h : firstRecord aRes ≠ "-" ∨ firstRecord aaaaRes ≠ "-"
    · rw [if_pos h]
      left
      rfl
    · rw [if_neg h]
      right
      rfl
  · intro h
    have h2 : (get_dns_records aRes aaaaRes).ipv4 ≠ "-" := h
    show (if (get_dns_records aRes aaaaRes).ipv4 ≠ "-" then
      (get_dns_records aRes aaaaRes).ipv4 else (get_dns_records p2a p2aaaa).ipv4) = _
    rw [if_pos h2]
    rfl
  · intro h
    have h2 : ¬ (get_dns_records aRes aaaaRes).ipv4 ≠ "-" := by
      simpa using (h : (get_dns_records aRes aaaaRes).ipv4 = "-")
    show (if (get_dns_records aRes aaaaRes).ipv4 ≠ "-" then
      (get_dns_records aRes aaaaRes).ipv4 else (get_dns_records p2a p2aaaa).ipv4) = _
    rw [if_neg h2]
    rfl
  · intro h
    have h2 : (get_dns_records aRes aaaaRes).ipv6 ≠ "-" := h
    show (if (get_dns_records aRes aaaaRes).ipv6 ≠ "-" then
      (get_dns_records aRes aaaaRes).ipv6 else (get_dns_records p2a p2aaaa).ipv6) = _
    rw [if_pos h2]
    rfl
  · intro h
    have h2 : ¬ (get_dns_records aRes aaaaRes).ipv6 ≠ "-" := by
      simpa using (h : (get_dns_records aRes aaaaRes).ipv6 = "-")
    show (if (get_dns_records aRes aaaaRes).ipv6 ≠ "-" then
      (get_dns_records aRes aaaaRes).ipv6 else (get_dns_records p2a p2aaaa).ipv6) = _
    rw [if_neg h2]
    rfl

/-- Witness for C7 at a concrete input: resolver 1 resolved only AAAA;
status is `OK`. -/
theorem claim7_witness :
    (get_dns_records (.error ()) (.ok ["2607:f8b0::200e"])).status = "OK" := by
  have h := claim7_dns_records (.error ()) (.ok ["2607:f8b0::200e"])
    (.ok ["142.250.80.46"]) (.error ()) "google.com"
    (by intro l hl; cases hl)
    (by
      intro l hl x hx
      cases hl
      rcases List.mem_singleton.mp hx with rfl
      decide)
  exact h.1.mpr (Or.inr ⟨"2607:f8b0::200e", [], rfl⟩)

/-! ## Claim C10 -/

/-- C10: the interactive removal rewrites the config file exactly when
the user's selection parses as an integer in `1..len(servers)`; a `0`
selection (cancel), a non-integer string and an out-of-range integer
all return with the file content untouched. -/
theorem claim10_remove_selection (lines : List String) (input : String) :
    (remove_server_select lines input).isSome = true ↔
      ∃ k : Int, pyInt input = some k ∧ 1 ≤ k ∧
        k ≤ ((parse_config lines).servers.length : Int) := by
  simp only [remove_server_select]
  by_cases hemp : ((parse_config lines).servers).isEmpty
  · rw [if_pos hemp]
    have hlen : (parse_config lines).servers.length = 0 := by
      rcases h' : (parse_config lines).servers with - | ⟨a, rest⟩
      · rfl
      · rw [h'] at hemp
        simp [List.isEmpty] at hemp
    constructor
    · intro h
      simp at h
    · rintro ⟨k, -, h1, h2⟩
      rw [hlen] at h2
      omega
  · rw [if_neg hemp]
    cases hint : pyInt input with
    | none =>
      constructor
      · intro h
        simp at h
      · rintro ⟨k, hk, -, -⟩
        cases hk
    | some k =>
      dsimp only
      by_cases hk0 : k = 0
      · subst hk0
        rw [if_pos rfl]
        constructor
        · intro h
          simp at h
        · rintro ⟨k2, hk2, h1, -⟩
          injection hk2 with hk2
          omega
      · rw [if_neg hk0]
        by_cases hrange : 1 ≤ k ∧ k ≤ ((parse_config lines).servers.length : Int)
        · rw [if_pos hrange]
          cases hget : (parse_config lines).servers.get? (k - 1).toNat with
          | none =>
            have := List.get?_eq_none.mp hget
            omega
          | some srv =>
            simp only [Option.isSome_some, true_iff]
            exact ⟨k, rfl, hrange.1, hrange.2⟩
        · rw [if_neg hrange]
          constructor
          · intro h
            simp at h
          · rintro ⟨k2, hk2, h1, h2⟩
            injection hk2 with hk2
            subst hk2
            exact (hrange ⟨h1, h2⟩).elim

/-! ## Claim C5 -/

/-- C5: for the library's `get_servers_to_check`, the local-only flag
pair keeps exactly the `kind=local` entities in original order (a
sublist of the input), the remote-only pair keeps the remote ones, and
passing neither or both flags returns the list unmodified.  The flat
script's inline filter (`if args.local: ... elif args.remote:`)
disagrees at the both-flags input: it drops the remote entities. -/
theorem claim5_filtering :
    (∀ allServers : List Server, get_servers_to_check allServers true false =
      allServers.filter (fun s => decide (s.type = "local")))
    ∧ (∀ allServers : List Server, get_servers_to_check allServers false true =
      allServers.filter (fun s => decide (s.type = "remote")))
    ∧ (∀ allServers : List Server,
        List.Sublist (get_servers_to_check allServers true false) allServers)
    ∧ (∀ allServers : List Server, get_servers_to_check allServers false false = allServers)
    ∧ (∀ allServers : List Server, get_servers_to_check allServers true true = allServers)
    ∧ scriptFilter [⟨"127.0.0.1", "localhost", "local"⟩, ⟨"8.8.8.8", "google", "remote"⟩]
        true true = [⟨"127.0.0.1", "localhost", "local"⟩]
    ∧ get_servers_to_check [⟨"127.0.0.1", "localhost", "local"⟩, ⟨"8.8.8.8", "google", "remote"⟩]
        true true = [⟨"127.0.0.1", "localhost", "local"⟩, ⟨"8.8.8.8", "google", "remote"⟩] := by
  refine ⟨?_, ?_, ?_, ?_, ?_, ?_, ?_⟩
  · intro allServers
    rfl
  · intro allServers
    rfl
  · intro allServers
    exact List.filter_sublist _
  · intro allServers
    rfl
  · intro allServers
    rfl
  · decide
  · decide

/-! ## Claim C4 -/

/-- C4: in the library's parser, a setting line (`key = value` with key
`timeout` or `retries`) whose value fails numeric parsing leaves the
settings — and everything else in the parse state — unchanged, and
parsing continues; a parsable value overwrites the setting, as a float
when the value contains `'.'` and as an int otherwise.  The flat script
`check-servers.py` instead lets the `ValueError` escape (last
conjunct): on the same input the library retains the default while the
script's parse raises. -/
theorem claim4_settings_leniency :
    (∀ (st : ParseState) (line : String),
      lineSkipped (pyStripList line.data) = false →
      lineIsHeader (pyStripList line.data) = false →
      (pyStripList line.data).elem '=' = true →
      (parseLineStep st line).servers = st.servers ∧
      (parseLineStep st line).currentSection = st.currentSection ∧
      (parseLineStep st line).settings =
        applySetting st.settings (eqKey (pyStripList line.data)) (eqValue (pyStripList line.data)))
    ∧ (∀ (sets : Settings) (value : String),
        (parseSettingValue value = none →
          applySetting sets "timeout" value = sets ∧ applySetting sets "retries" value = sets)
        ∧ (∀ n, parseSettingValue value = some n →
            applySetting sets "timeout" value = ⟨n, sets.retries⟩ ∧
            applySetting sets "retries" value = ⟨sets.timeout, n⟩)
        ∧ (∀ key, key ≠ "timeout" → key ≠ "retries" → applySetting sets key value = sets))
    ∧ parseSettingValue "0.5" = some (.float (mkRat 1 2))
    ∧ parseSettingValue "3" = some (.int 3)
    ∧ parseSettingValue "abc" = none
    ∧ parseSettingValue "1.2.3" = none
    ∧ (parse_config ["timeout = 0.5", "timeout = abc"]).settings.timeout = .float (mkRat 1 2)
    ∧ (parse_config ["timeout = abc", "retries = 1.2.3"]).settings = defaultSettings
    ∧ parse_config_script ["timeout = abc"] = .error () := by
  refine ⟨?_, ?_, by decide, by decide, by decide, by decide, by decide, by decide, by decide⟩
  · intro st line h1 h2 h3
    simp only [parseLineStep, h1, h2, h3]
    simp
  · intro sets value
    refine ⟨?_, ?_, ?_⟩
    · intro hnone
      constructor <;> simp [applySetting, hnone]
    · intro n hn
      constructor <;> simp [applySetting, hn]
    · intro key hk1 hk2
      simp [applySetting, hk1, hk2]

/-- Witness for C4 at the failing input `timeout = abc`: the library's
step leaves the default settings in place. -/
theorem claim4_witness :
    (parseLineStep initParseState "timeout = abc").settings = defaultSettings := by
  have hstep := claim4_settings_leniency.1 initParseState "timeout = abc"
    (by decide) (by decide) (by decide)
  rw [hstep.2.2]
  decide

/-! ## Claim C2 -/

/-- C2: after a dispatcher run over a set of entities, the result map
contains a result under the name of every entity whose probe returned
normally (whatever the completion order), and a probe that raises is
caught per item: injecting one failing entity leaves the map's entries
under every other name exactly as they were — no other entity's result
is lost.  The hypothesis states what `ping_server` guarantees: a
returned result carries the probed server. -/
theorem claim2_dispatcher_isolation (order : List Server)
    (probe : Server → Except Unit PingResult)
    (hkey : ∀ s r, probe s = .ok r → r.server.name = s.name) :
    (∀ s ∈ order, ∀ r, probe s = .ok r →
      (dictGet (run_pings order probe) s.name).isSome = true)
    ∧ (∀ (x : Server) (n : String), n ≠ x.name →
        dictGet (run_pings order (probeWithFailure x probe)) n =
          dictGet (run_pings order probe) n) := by
  constructor
  · intro s hs r hr
    exact dictGet_collect_isSome (fun r => r.server.name) Server.name probe hkey order s hs r hr
  · intro x n hn
    induction order with
    | nil => rfl
    | cons a rest ih =>
      by_cases hax : a = x
      · subst hax
        simp only [run_pings, collectResults, probeWithFailure, if_pos rfl]
        cases hpa : probe a with
        | ok b =>
          rw [dictGet_cons_ne _ _ _ _ (by rw [hkey a b hpa]; exact Ne.symm hn)]
          exact ih
        | error e =>
          exact ih
      · cases hpa : probe a with
        | ok b =>
          simp only [run_pings, collectResults, probeWithFailure, if_neg hax, hpa, dictGet]
          rw [show dictGet (collectResults (fun r => r.server.name)
            (probeWithFailure x probe) rest) n = dictGet (collectResults
            (fun r => r.server.name) probe rest) n from ih]
        | error e =>
          simp only [run_pings, collectResults, probeWithFailure, if_neg hax, hpa]
          exact ih

/-- Witness for C2 at a concrete input: two servers, both probes return;
server one's result is present, and injecting a failure at server two
does not change what is recorded under server one's name. -/
theorem claim2_witness :
    (dictGet (run_pings [⟨"1.1.1.1", "one", "remote"⟩, ⟨"2.2.2.2", "two", "remote"⟩]
      (fun s => .ok ⟨s, "OK", some 10⟩)) "one").isSome = true
    ∧ dictGet (run_pings [⟨"1.1.1.1", "one", "remote"⟩, ⟨"2.2.2.2", "two", "remote"⟩]
        (probeWithFailure ⟨"2.2.2.2", "two", "remote"⟩ (fun s => .ok ⟨s, "OK", some 10⟩))) "one" =
      dictGet (run_pings [⟨"1.1.1.1", "one", "remote"⟩, ⟨"2.2.2.2", "two", "remote"⟩]
        (fun s => .ok ⟨s, "OK", some 10⟩)) "one" := by
  have h := claim2_dispatcher_isolation
    [⟨"1.1.1.1", "one", "remote"⟩, ⟨"2.2.2.2", "two", "remote"⟩]
    (fun s => .ok ⟨s, "OK", some 10⟩)
    (by intro s r hr; cases hr; rfl)
  exact ⟨h.1 ⟨"1.1.1.1", "one", "remote"⟩ (by simp) ⟨⟨"1.1.1.1", "one", "remote"⟩, "OK", some 10⟩ rfl,
    h.2 ⟨"2.2.2.2", "two", "remote"⟩ "one" (by decide)⟩

/-! ## Claim C8 -/

/-- The latencies of the `OK` results that the renderer's loop meets,
in display order — the claim's "latencies over OK results". -/
def ok_latencies (results : List (String × PingResult)) (serversToCheck : List Server) :
    List ℚ :=
  serversToCheck.filterMap
    (fun s => (dictGet results s.name).bind
      (fun r => if r.status = "OK" then r.latency else none))

/-- C8: the reported average latency is the arithmetic mean of the
latencies over `OK` results — the accumulated `up_count` is their number
and `total_latency` their sum — and with zero `OK` results it is exactly
`0`, the `if up_count > 0` guard never dividing by zero.  The hypothesis
states what `ping_server` guarantees: an `OK` result carries a latency. -/
theorem claim8_average_latency (serversToCheck : List Server)
    (results : List (String × PingResult))
    (hlat : ∀ p ∈ results, p.2.status = "OK" → p.2.latency.isSome = true) :
    (display_stats results serversToCheck).1 = (ok_latencies results serversToCheck).length
    ∧ (display_stats results serversToCheck).2.2 = (ok_latencies results serversToCheck).sum
    ∧ avg_latency serversToCheck results =
        (if (ok_latencies results serversToCheck).length = 0 then 0
         else (ok_latencies results serversToCheck).sum /
           ((ok_latencies results serversToCheck).length : ℚ)) := by
  have hmain : (display_stats results serversToCheck).1 =
      (ok_latencies results serversToCheck).length
      ∧ (display_stats results serversToCheck).2.2 =
        (ok_latencies results serversToCheck).sum := by
    induction serversToCheck with
    | nil => exact ⟨rfl, rfl⟩
    | cons s rest ih =>
      cases hres : dictGet results s.name with
      | none =>
        simpa only [display_stats, ok_latencies, List.filterMap_cons, hres,
          Option.none_bind] using ih
      | some r =>
        by_cases hok : r.status = "OK"
        · have hsome := hlat (s.name, r) (dictGet_mem results s.name r hres) hok
          cases hq : r.latency with
          | none => rw [hq] at hsome; cases hsome
          | some q =>
            constructor
            · simp only [display_stats, ok_latencies, List.filterMap_cons, hres,
                Option.some_bind, if_pos hok, hq, List.length_cons]
              rw [ih.1]
              rfl
            · simp only [display_stats, ok_latencies, List.filterMap_cons, hres,
                Option.some_bind, if_pos hok, hq, List.sum_cons]
              rw [qAdd_eq, ih.2]
              rfl
        · simpa only [display_stats, ok_latencies, List.filterMap_cons, hres,
            Option.some_bind, if_neg hok] using ih
  refine ⟨hmain.1, hmain.2, ?_⟩
  show (if (display_stats results serversToCheck).1 > 0 then
    qDivNat (display_stats results serversToCheck).2.2 (display_stats results serversToCheck).1
    else 0) = _
  rw [hmain.1, hmain.2, qDivNat_eq]
  by_cases hz : (ok_latencies results serversToCheck).length = 0
  · rw [if_pos hz, if_neg (by omega)]
  · rw [if_neg hz, if_pos (by omega)]

/-- Witness for C8 at concrete inputs: two `OK` results with latencies
`10` and `20` average to `15`, and an empty result set averages to `0`
with the division never taken. -/
theorem claim8_witness :
    avg_latency [⟨"1.1.1.1", "one", "remote"⟩, ⟨"2.2.2.2", "two", "remote"⟩]
      [("one", ⟨⟨"1.1.1.1", "one", "remote"⟩, "OK", some 10⟩),
       ("two", ⟨⟨"2.2.2.2", "two", "remote"⟩, "OK", some 20⟩)] = 15
    ∧ avg_latency [⟨"1.1.1.1", "one", "remote"⟩] [] = 0 := by
  constructor
  · have h := (claim8_average_latency
      [⟨"1.1.1.1", "one", "remote"⟩, ⟨"2.2.2.2", "two", "remote"⟩]
      [("one", ⟨⟨"1.1.1.1", "one", "remote"⟩, "OK", some 10⟩),
       ("two", ⟨⟨"2.2.2.2", "two", "remote"⟩, "OK", some 20⟩)]
      (by decide)).2.2
    rw [h, show ok_latencies
      [("one", ⟨⟨"1.1.1.1", "one", "remote"⟩, "OK", some 10⟩),
       ("two", ⟨⟨"2.2.2.2", "two", "remote"⟩, "OK", some 20⟩)]
      [⟨"1.1.1.1", "one", "remote"⟩, ⟨"2.2.2.2", "two", "remote"⟩] = [10, 20] from by decide]
    norm_num
  · have h := (claim8_average_latency [⟨"1.1.1.1", "one", "remote"⟩] []
      (by intro p hp; cases hp)).2.2
    rw [h, show ok_latencies [] [⟨"1.1.1.1", "one", "remote"⟩] = [] from by decide]
    norm_num

/-! ## Claim C3 -/

/-- The entity lines as claim C3 words them: a line with two or more
whitespace-separated tokens appearing inside a `[local]` or `[remote]`
section, where blank lines, `#` comments and bracketed section headers
are not entity lines and headers set the section.  (Built from the
claim's words, to compare against the parser.) -/
def claimEntitiesOrig : Option String → List String → List Server
  | _, [] => []
  | sec, rawLine :: rest =>
    let cs := pyStripList rawLine.data
    if lineSkipped cs then claimEntitiesOrig sec rest
    else if lineIsHeader cs then claimEntitiesOrig (some (sliceInner cs)) rest
    else
      match sec with
      | some s =>
        if s = "local" ∨ s = "remote" then
          match splitMax1 (String.mk cs) with
          | [ip, name] => ⟨ip, name, s⟩ :: claimEntitiesOrig sec rest
          | _ => claimEntitiesOrig sec rest
        else claimEntitiesOrig sec rest
      | none => claimEntitiesOrig sec rest

/-- The entity lines as the amended claim words them: as in
`claimEntitiesOrig`, but a line containing `'='` is a setting
assignment, never an entity — the parser classifies `'='` before it
looks at the section.  (Built from the amended claim's words.) -/
def specEntities : Option String → List String → List Server
  | _, [] => []
  | sec, rawLine :: rest =>
    let cs := pyStripList rawLine.data
    if lineSkipped cs then specEntities sec rest
    else if lineIsHeader cs then specEntities (some (sliceInner cs)) rest
    else if cs.elem '=' then specEntities sec rest
    else
      match sec with
      | some s =>
        if s = "local" ∨ s = "remote" then
          match splitMax1 (String.mk cs) with
          | [ip, name] => ⟨ip, name, s⟩ :: specEntities sec rest
          | _ => specEntities sec rest
        else specEntities sec rest
      | none => specEntities sec rest

/-- Counterexample to C3 as stated: the config `[local]` + `a=b c` has
one well-formed entity line by the claim's definition (two
whitespace-separated tokens inside `[local]`), but the parser, which
classifies any line containing `'='` as a setting assignment first,
returns no entities. -/
theorem claim3_counterexample :
    (claimEntitiesOrig none ["[local]", "a=b c"]).length = 1
    ∧ (parse_config ["[local]", "a=b c"]).servers = [] := by
  constructor
  · decide
  · decide

/-- The servers component of a parse only grows, line by line, by the
amended claim's extraction; the settings never feed back into it. -/
theorem parse_servers_aux (lines : List String) :
    ∀ (st : ParseState),
      (List.foldl parseLineStep st lines).servers =
        st.servers ++ specEntities st.currentSection lines := by
  induction lines with
  | nil => intro st; simp [specEntities]
  | cons l rest ih =>
    intro st
    rw [List.foldl_cons, ih (parseLineStep st l)]
    by_cases h1 : lineSkipped (pyStripList l.data) = true
    · simp [parseLineStep, specEntities, h1]
    · by_cases h2 : lineIsHeader (pyStripList l.data) = true
      · simp [parseLineStep, specEntities, h1, h2]
      · by_cases h3 : (pyStripList l.data).elem '=' = true
        · have h3m : '=' ∈ pyStripList l.data := by simpa using h3
          simp [parseLineStep, specEntities, h1, h2, h3m]
        · have h3m : ¬ ('=' ∈ pyStripList l.data) := by simpa using h3
          cases hsec : st.currentSection with
          | none => simp [parseLineStep, specEntities, h1, h2, h3m, hsec]
          | some s =>
            by_cases h4 : s = "local" ∨ s = "remote"
            · rcases hsp : splitMax1 (String.mk (pyStripList l.data)) with - | ⟨ip, - | ⟨name, - | ⟨z, zs⟩⟩⟩
              · simp [parseLineStep, specEntities, h1, h2, h3m, hsec, h4, hsp]
              · simp [parseLineStep, specEntities, h1, h2, h3m, hsec, h4, hsp]
              · simp [parseLineStep, specEntities, h1, h2, h3m, hsec, h4, hsp]
              · simp [parseLineStep, specEntities, h1, h2, h3m, hsec, h4, hsp]
            · simp [parseLineStep, specEntities, h1, h2, h3m, hsec, h4]

/-- C3 (amended): for every config text, the parser returns exactly the
well-formed entity lines — two or more whitespace-separated tokens, no
`'='`, not a bracketed header, not blank or a `#` comment — inside
`[local]`/`[remote]` sections, in file order, each tagged with the kind
named by the section header it appears under. -/
theorem claim3_amended_parse_entities (lines : List String) :
    (parse_config lines).servers = specEntities none lines := by
  have h := parse_servers_aux lines initParseState
  simpa [parse_config, initParseState] using h

/-! ## Claim C9 -/

/-- Counterexample to C9 as stated: in the docker tool, the parsed
(config) order of the containers of host `h` is `z` then `a`, but the
renderer sorts the collected rows by `(host, name)` before display
(`check-docker.py`, line 128), so they are displayed `a` then `z` — the
display order is not the parse order. -/
theorem claim9_counterexample :
    (check_host_containers "h" ["z", "a"]
      (.ok [⟨"z", "running"⟩, ⟨"a", "running"⟩])).map (fun r => r.1) = ["z", "a"]
    ∧ (docker_sort (check_host_containers "h" ["z", "a"]
        (.ok [⟨"z", "running"⟩, ⟨"a", "running"⟩]))).map (fun r => r.1) = ["a", "z"]
    ∧ docker_sort (check_host_containers "h" ["z", "a"]
        (.ok [⟨"z", "running"⟩, ⟨"a", "running"⟩])) ≠
      check_host_containers "h" ["z", "a"]
        (.ok [⟨"z", "running"⟩, ⟨"a", "running"⟩]) := by
  refine ⟨by decide, by decide, by decide⟩

/-- C9 (amended): for the servers tool and the DNS tool, the entities
are displayed in exactly the order they appear in the parsed
configuration (resp. the fixed `WEBSITES` list), whatever completion
order the dispatcher's futures finished in — the docker tools instead
display rows sorted by `(host, name)` (flat script) or name (package),
which in general differs from config order.  Distinct entity names are
assumed (the spec's own identity assumption); the probe hypotheses state
that a probe's result carries the probed entity. -/
theorem claim9_amended_display_order :
    (∀ (servers order : List Server) (probe : Server → Except Unit PingResult),
      order.Perm servers →
      (∀ s r, probe s = .ok r → r.server.name = s.name) →
      (servers.map Server.name).Nodup →
      display_rows servers (run_pings order probe) =
        servers.filterMap (fun s => (probe s).toOption.map displayRow))
    ∧ (∀ (websites order : List String) (probe : String → Except Unit SiteCheckResult),
      order.Perm websites →
      (∀ s r, probe s = .ok r → r.site = s) →
      websites.Nodup →
      dns_display_rows websites (run_dns order probe) =
        websites.filterMap (fun s => (probe s).toOption)) := by
  constructor
  · intro servers order probe hperm hkey hnodup
    apply List.filterMap_congr
    intro s hs
    have hnodup' : (order.map Server.name).Nodup :=
      ((hperm.map Server.name).nodup_iff).mpr hnodup
    have hd := dictGet_collect (fun r => r.server.name) Server.name probe hkey order
      hnodup' s (hperm.mem_iff.mpr hs)
    rw [show run_pings order probe =
      collectResults (fun r => r.server.name) probe order from rfl, hd]
  · intro websites order probe hperm hkey hnodup
    apply List.filterMap_congr
    intro s hs
    have hnodup' : (order.map (fun s : String => s)).Nodup := by
      simpa using hperm.nodup_iff.mpr hnodup
    exact dictGet_collect (fun r => r.site) (fun s => s) probe hkey order hnodup' s
      (hperm.mem_iff.mpr hs)

/-- Witness for the amended C9 at a concrete input: one server, probe
returns `OK`, the single display row is the server's in config order. -/
theorem claim9_amended_witness :
    display_rows [⟨"1.1.1.1", "one", "remote"⟩]
      (run_pings [⟨"1.1.1.1", "one", "remote"⟩] (fun s => .ok ⟨s, "OK", some 5⟩)) =
      [("one", "1.1.1.1", "remote", "OK")] := by
  rw [claim9_amended_display_order.1 [⟨"1.1.1.1", "one", "remote"⟩]
    [⟨"1.1.1.1", "one", "remote"⟩] (fun s => .ok ⟨s, "OK", some 5⟩)
    (List.Perm.refl _) (by intro s r h; cases h; rfl) (by decide)]
  decide

/-! ## Claim C1 -/

/-- The regex matched at this position with a float-parsable group —
the claim's "contains a `time=<number> ms` token" at one position. -/
def numericTimeAt (cs : List Char) : Bool :=
  match timeMatchAt cs with
  | some g => (pyFloat (String.mk g)).isSome
  | none => false

def hasNumericTimeTokenAux : List Char → Bool
  | [] => false
  | c :: cs => numericTimeAt (c :: cs) || hasNumericTimeTokenAux cs

/-- The output contains a `time=<number> ms` token with `<number>` an
actual float literal, at some position — the claim-side hypothesis of
C1. -/
def hasNumericTimeToken (s : String) : Bool :=
  hasNumericTimeTokenAux s.data

/-- An attempt the retry loop passes over: nonzero exit status, or no
`time=([\d.]+)\s*ms` match in the output. -/
def attemptFails (att : Nat → PingAttempt) (j : Nat) : Prop :=
  (att j).returncode ≠ 0 ∨ reSearchTime (att j).stdout = none

/-- The attempt oracle of the counterexample: the first attempt exits 0
with output `time=. ms` (a regex match whose group `.` is not a float
literal), the second exits 0 with a perfectly good latency token. -/
def cexAttempts : Nat → PingAttempt := fun i =>
  if i = 0 then ⟨0, "time=. ms"⟩
  else ⟨0, "64 bytes from 1.2.3.4: icmp_seq=1 ttl=57 time=1.5 ms"⟩

/-- Counterexample to C1 as stated: the first attempt's output contains
no `time=<number> ms` token (so by the claim the retry loop should
continue, and the second attempt — zero exit, parsable token — should
yield OK with latency 1.5).  Instead `float(".")` raises `ValueError`
out of `ping_server` after exactly one attempt: the call neither
returns OK nor continues the loop. -/
theorem claim1_counterexample :
    hasNumericTimeToken (cexAttempts 0).stdout = false
    ∧ (cexAttempts 0).returncode = 0
    ∧ (cexAttempts 1).returncode = 0
    ∧ hasNumericTimeToken (cexAttempts 1).stdout = true
    ∧ ping_server ⟨"1.2.3.4", "cex", "local"⟩ (mkRat 1 5) cexAttempts 2 = .error ()
    ∧ ping_attempts cexAttempts 2 = 1 := by
  refine ⟨by decide, by decide, by decide, by decide, by decide, by decide⟩

/-- Where the retry loop ends when attempt `i + k` is the first (from
`i`) whose exit status is zero and whose output matches the regex:
the parsed group decides between OK-with-latency and the `ValueError`,
and exactly `k + 1` attempts have run. -/
theorem pingAux_hit (att : Nat → PingAttempt) :
    ∀ (k n i : Nat), k < n →
      (∀ j, j < k → attemptFails att (i + j)) →
      (att (i + k)).returncode = 0 →
      ∀ g, reSearchTime (att (i + k)).stdout = some g →
      pingAux att i n =
        ((pyFloat g).elim (.error ()) (fun q => .ok (some q)), k + 1) := by
  intro k
  induction k with
  | zero =>
    intro n i hk _ hrc g hsearch
    cases n with
    | zero => omega
    | succ m =>
      rw [Nat.add_zero] at hrc hsearch
      simp only [pingAux, hrc, if_pos rfl, hsearch]
      cases hf : pyFloat g <;> rfl
  | succ k ih =>
    intro n i hk hfail hrc g hsearch
    cases n with
    | zero => omega
    | succ m =>
      have hfail0 := hfail 0 (Nat.succ_pos k)
      rw [Nat.add_zero] at hfail0
      have hstep := ih m (i + 1) (by omega)
        (fun j hj => by
          have := hfail (j + 1) (by omega)
          rwa [show i + (j + 1) = i + 1 + j by omega] at this)
        (by rwa [show i + 1 + k = i + (k + 1) by omega])
        g (by rwa [show i + 1 + k = i + (k + 1) by omega])
      rcases hfail0 with hrc0 | hsearch0
      · simp only [pingAux, if_neg hrc0, hstep]
      · by_cases hrc0 : (att i).returncode = 0
        · simp only [pingAux, if_pos hrc0, hsearch0, hstep]
        · simp only [pingAux, if_neg hrc0, hstep]

/-- When every attempt in range fails, the loop falls through after
exactly `n` attempts with no latency. -/
theorem pingAux_down (att : Nat → PingAttempt) :
    ∀ (n i : Nat), (∀ j, j < n → attemptFails att (i + j)) →
      pingAux att i n = (.ok none, n) := by
  intro n
  induction n with
  | zero => intro i _; rfl
  | succ m ih =>
    intro i hfail
    have hfail0 := hfail 0 (Nat.succ_pos m)
    rw [Nat.add_zero] at hfail0
    have hstep := ih (i + 1) (fun j hj => by
      have := hfail (j + 1) (by omega)
      rwa [show i + (j + 1) = i + 1 + j by omega] at this)
    rcases hfail0 with hrc0 | hsearch0
    · simp only [pingAux, if_neg hrc0, hstep]
    · by_cases hrc0 : (att i).returncode = 0
      · simp only [pingAux, if_pos hrc0, hsearch0, hstep]
      · simp only [pingAux, if_neg hrc0, hstep]

/-- C1 (amended): `ping_server` returns OK with the parsed latency on
the first attempt whose exit status is zero and whose output's leftmost
`time=([\d.]+)\s*ms` match has a float-parsable group, short-circuiting
the remaining retries after `k + 1` attempts; an attempt with nonzero
exit, or zero exit but no regex match at all, is passed over and the
loop continues; when every attempt fails in that sense, exactly
`retries` attempts run and the result is DOWN with no latency; and on
the first attempt whose leftmost matched group is *not* float-parsable
(such as `"."`), `float()` raises `ValueError` out of `ping_server`
instead of continuing. -/
theorem claim1_amended_ping_server (server : Server) (timeout : ℚ)
    (att : Nat → PingAttempt) (retries : Nat) :
    (∀ k, k < retries → (∀ j, j < k → attemptFails att j) →
      (att k).returncode = 0 →
      ∀ g q, reSearchTime (att k).stdout = some g → pyFloat g = some q →
      ping_server server timeout att retries = .ok ⟨server, "OK", some q⟩ ∧
      ping_attempts att retries = k + 1)
    ∧ (∀ k, k < retries → (∀ j, j < k → attemptFails att j) →
      (att k).returncode = 0 →
      ∀ g, reSearchTime (att k).stdout = some g → pyFloat g = none →
      ping_server server timeout att retries = .error () ∧
      ping_attempts att retries = k + 1)
    ∧ ((∀ j, j < retries → attemptFails att j) →
      ping_server server timeout att retries = .ok ⟨server, "DOWN", none⟩ ∧
      ping_attempts att retries = retries) := by
  refine ⟨?_, ?_, ?_⟩
  · intro k hk hfail hrc g q hsearch hfloat
    have hhit := pingAux_hit att k retries 0 hk
      (fun j hj => by simpa using hfail j hj)
      (by simpa using hrc) g (by simpa using hsearch)
    rw [hfloat] at hhit
    exact ⟨by simp only [ping_server, hhit]; rfl, by simp only [ping_attempts, hhit]⟩
  · intro k hk hfail hrc g hsearch hfloat
    have hhit := pingAux_hit att k retries 0 hk
      (fun j hj => by simpa using hfail j hj)
      (by simpa using hrc) g (by simpa using hsearch)
    rw [hfloat] at hhit
    exact ⟨by simp only [ping_server, hhit]; rfl, by simp only [ping_attempts, hhit]⟩
  · intro hfail
    have hdown := pingAux_down att retries 0 (fun j hj => by simpa using hfail j hj)
    exact ⟨by simp only [ping_server, hdown], by simp only [ping_attempts, hdown]⟩

/-- Witness for the amended C1 at concrete inputs: the repo's own test
vectors — one attempt with `time=11.5 ms` succeeds on the first try,
and a probe whose attempts all exit 1 is DOWN after exactly 3 tries. -/
theorem claim1_amended_witness :
    ping_server ⟨"1.1.1.1", "one", "remote"⟩ (mkRat 1 5)
      (fun _ => ⟨0, "64 bytes from 1.1.1.1: icmp_seq=1 ttl=57 time=11.5 ms"⟩) 1 =
      .ok ⟨⟨"1.1.1.1", "one", "remote"⟩, "OK", some (mkRat 23 2)⟩
    ∧ ping_attempts (fun _ => ⟨0, "64 bytes from 1.1.1.1: icmp_seq=1 ttl=57 time=11.5 ms"⟩) 1 = 1
    ∧ ping_server ⟨"10.255.255.1", "down", "local"⟩ (mkRat 1 10) (fun _ => ⟨1, ""⟩) 3 =
      .ok ⟨⟨"10.255.255.1", "down", "local"⟩, "DOWN", none⟩
    ∧ ping_attempts (fun _ => ⟨1, ""⟩) 3 = 3 := by
  have hok := (claim1_amended_ping_server ⟨"1.1.1.1", "one", "remote"⟩ (mkRat 1 5)
    (fun _ => ⟨0, "64 bytes from 1.1.1.1: icmp_seq=1 ttl=57 time=11.5 ms"⟩) 1).1
    0 (by decide) (fun j hj => absurd hj (by omega)) (by decide)
    "11.5" (mkRat 23 2) (by decide) (by decide)
  have hdown := (claim1_amended_ping_server ⟨"10.255.255.1", "down", "local"⟩ (mkRat 1 10)
    (fun _ => ⟨1, ""⟩) 3).2.2
    (fun j hj => Or.inl (by decide : ((1 : Int) ≠ 0)))
  exact ⟨hok.1, hok.2, hdown.1, hdown.2⟩

end Check
